import Mathlib

set_option maxHeartbeats 1000000

/-!
Verification development for the video2blog repository.

Shallow embedding of the four source modules:
  keyframe_extractor.py  (scene-change and timestamp frame extraction)
  db_service.py          (sync store over SQLite)
  web_app.py             (reconciliation pass and filename derivation)
  reka_service.py        (remote catalog client, result shape only)

Environmental effects are made explicit: whether the video opens, which
frame reads succeed, and the histogram correlation between two grayscale
frames are parameters; machine floats are modelled as rationals; fallible
operations return an error value.  ASCII text is assumed for the regex
character classes of sanitize_filename.
-/

/-- Errors raised by the extractors.  `cannotOpen` models the ValueError of
an unopenable video, `zeroDivision` the Python ZeroDivisionError raised by
the unguarded `total_frames / fps`, `tsOutOfRange t` the ValueError raised
by timestamp validation at the offending timestamp `t`. -/
inductive ExtractErr where
  | cannotOpen
  | zeroDivision
  | tsOutOfRange (t : ℚ)
deriving DecidableEq

/-- Scene-mode keyframe descriptor (keyframe_extractor.py lines 88-92):
source frame index and timestamp.  The output filename is a formatted
presentation of these two numbers and is not modelled. -/
structure KF where
  frame : ℕ
  timestamp : ℚ
deriving DecidableEq

/-- Loop state of extract_keyframes (lines 49-52): previous sampled gray
frame, frames decoded so far, keyframes saved so far. -/
structure SceneState where
  prev : Option ℕ
  frameCount : ℕ
  savedCount : ℕ
  keyframes : List KF
deriving DecidableEq

/-- The read loop of extract_keyframes (lines 55-101).  A decoded frame is
abstracted by a ℕ identifier of its grayscale content; `corr` models the
normalized-histogram correlation of two such frames.  Every 5th decoded
frame is sampled; a sampled frame whose correlation with the previous
sample is below 1 - threshold is emitted while the cap is not reached; the
loop breaks once savedCount reaches maxFrames (line 100, which is only
reached on sampled iterations because of the continue at line 63). -/
def sceneLoop (corr : ℕ → ℕ → ℚ) (fps threshold : ℚ) (maxFrames : ℕ) :
    List ℕ → SceneState → SceneState
  | [], s => s
  | g :: rest, s =>
    let fc := s.frameCount + 1
    if fc % 5 ≠ 0 then
      sceneLoop corr fps threshold maxFrames rest { s with frameCount := fc }
    else
      let s1 : SceneState :=
        match s.prev with
        | none => { s with frameCount := fc }
        | some p =>
          if corr p g < 1 - threshold ∧ s.savedCount < maxFrames then
            { prev := s.prev, frameCount := fc, savedCount := s.savedCount + 1,
              keyframes := s.keyframes ++ [⟨fc, (fc : ℚ) / fps⟩] }
          else { s with frameCount := fc }
      let s2 := { s1 with prev := some g }
      if maxFrames ≤ s2.savedCount then s2
      else sceneLoop corr fps threshold maxFrames rest s2

/-- Result of a successful extract_keyframes run: the emitted keyframes,
how many frames were decoded, the manifest duration, and the fact that the
manifest was written (lines 106-116). -/
structure SceneRun where
  keyframes : List KF
  framesRead : ℕ
  duration : ℚ
  manifestWritten : Bool
deriving DecidableEq

/-- extract_keyframes (keyframe_extractor.py lines 11-121).  `opened`
models cap.isOpened(); `totalFrames` the CAP_PROP_FRAME_COUNT metadata;
`frames` the actually decodable frame stream.  Line 44 divides
total_frames by fps with no guard, so fps = 0 raises ZeroDivisionError
before any frame is read. -/
def extract_keyframes (corr : ℕ → ℕ → ℚ) (opened : Bool) (fps : ℚ)
    (totalFrames : ℕ) (frames : List ℕ) (threshold : ℚ) (maxFrames : ℕ) :
    Except ExtractErr SceneRun :=
  if opened = false then .error .cannotOpen
  else if fps = 0 then .error .zeroDivision
  else
    let fin := sceneLoop corr fps threshold maxFrames frames ⟨none, 0, 0, []⟩
    .ok ⟨fin.keyframes, fin.frameCount, (totalFrames : ℚ) / fps, true⟩

/-- Timestamp-mode frame descriptor (keyframe_extractor.py lines 209-216):
requested-timestamp index, requested and actual timestamp, absolute frame
index and signed offset.  The formatted filename is not modelled. -/
structure TsFrame where
  timestampIndex : ℕ
  targetTimestamp : ℚ
  actualTimestamp : ℚ
  frameNumber : ℤ
  offsetFromTarget : ℤ
deriving DecidableEq

/-- Python int() applied to a rational: truncation toward zero. -/
def pyTrunc (q : ℚ) : ℤ := if q < 0 then -((-q).floor) else q.floor

/-- The loop offsets of lines 173 and 182: offset = (k-1)//2 and
i in range(-offset, k - offset). -/
def targetOffsets (k : ℕ) : List ℤ :=
  (List.range k).map (fun j => (j : ℤ) - ((k - 1) / 2 : ℕ))

/-- The frame indices the inner loop computes as target_frame (line 183)
for a given center frame: center + i for each loop offset i. -/
def attemptedTargets (k : ℕ) (center : ℤ) : List ℤ :=
  (targetOffsets k).map (fun i => center + i)

/-- Spec-side description (§4.5): for each target, frames are requested at
offsets spanning [-floor((k-1)/2), k - 1 - floor((k-1)/2)] around the
center, i.e. the k consecutive integers starting at
center - floor((k-1)/2). -/
def specAttemptedTargets (k : ℕ) (center : ℤ) : List ℤ :=
  (List.range k).map (fun j => (center - ((k : ℤ) - 1) / 2) + (j : ℤ))

/-- Per-timestamp extraction (keyframe_extractor.py lines 175-218):
center = int(timestamp * fps); for each offset the target index is
computed; indices outside [0, total_frames) are skipped (lines 186-188),
failed reads are skipped (lines 194-196), successful reads are written and
recorded.  `readable` models whether cap.read succeeds at an index. -/
def framesAtTimestamp (fps : ℚ) (totalFrames : ℕ) (readable : ℤ → Bool)
    (k : ℕ) (tsIdx : ℕ) (t : ℚ) : List TsFrame :=
  let center := pyTrunc (t * fps)
  (targetOffsets k).filterMap (fun i =>
    let target := center + i
    if target < 0 ∨ (totalFrames : ℤ) ≤ target then none
    else if readable target = false then none
    else some ⟨tsIdx, t, (target : ℚ) / fps, target, i⟩)

/-- The enumerate loop over the timestamp list (line 175). -/
def tsLoop (fps : ℚ) (totalFrames : ℕ) (readable : ℤ → Bool) (k : ℕ) :
    ℕ → List ℚ → List TsFrame
  | _, [] => []
  | idx, t :: rest =>
    framesAtTimestamp fps totalFrames readable k idx t ++
      tsLoop fps totalFrames readable k (idx + 1) rest

instance {ε α : Type} [DecidableEq ε] [DecidableEq α] :
    DecidableEq (Except ε α) := fun a b =>
  match a, b with
  | .error x, .error y =>
    if h : x = y then isTrue (h ▸ rfl)
    else isFalse (fun hh => h (by injection hh))
  | .ok x, .ok y =>
    if h : x = y then isTrue (h ▸ rfl)
    else isFalse (fun hh => h (by injection hh))
  | .error _, .ok _ => isFalse (fun hh => Except.noConfusion hh)
  | .ok _, .error _ => isFalse (fun hh => Except.noConfusion hh)

/-- Observable outcome of extract_frames_at_timestamps: the frame files
written (in order), whether the manifest was written, and the final result
or raised error. -/
structure TsOutcome where
  written : List TsFrame
  manifestWritten : Bool
  result : Except ExtractErr Unit
deriving DecidableEq

/-- The validation loop of lines 165-168 raises at the first timestamp
with ts < 0 or ts > duration. -/
def firstBadTimestamp (duration : ℚ) (l : List ℚ) : Option ℚ :=
  l.find? (fun t => decide (t < 0) || decide (duration < t))

/-- extract_frames_at_timestamps (keyframe_extractor.py lines 124-239).
Line 160 divides total_frames by fps with no guard (ZeroDivisionError for
fps = 0); validation (lines 164-168) precedes the extraction loop, so a
validation failure leaves zero frames written and no manifest. -/
def extract_frames_at_timestamps (opened : Bool) (fps : ℚ) (totalFrames : ℕ)
    (readable : ℤ → Bool) (timestamps : List ℚ) (k : ℕ) : TsOutcome :=
  if opened = false then ⟨[], false, .error .cannotOpen⟩
  else if fps = 0 then ⟨[], false, .error .zeroDivision⟩
  else
    match firstBadTimestamp ((totalFrames : ℚ) / fps) timestamps with
    | some t => ⟨[], false, .error (.tsOutOfRange t)⟩
    | none => ⟨tsLoop fps totalFrames readable k 0 timestamps, true, .ok ()⟩

/-!
Embedding of db_service.py and the reconciliation pass of web_app.py.
Timestamps (st_mtime) and sizes are modelled as rationals/integers; the
upload-folder path join is carried in the LocalFile.filepath field.
-/

/-- One row of the video_sync table (db_service.py lines 34-45).  The
autoincrement id and the created_at / updated_at columns are not needed by
any claim and are not modelled; the stored rows are kept in the order
list_all_syncs returns them (updated_at descending). -/
structure SyncRecord where
  reka_video_id : String
  local_filename : String
  video_name : String
  reka_url : Option String
  reka_indexing_status : Option String
deriving DecidableEq

/-- add_sync (db_service.py lines 53-86): INSERT OR REPLACE on a table
whose reka_video_id and local_filename columns are each UNIQUE.  SQLite
deletes every stored row that conflicts with either unique column and
inserts the new row, which carries the freshest updated_at and so heads
the updated_at-descending listing.  The sqlite3.Error branch (storage
failure, lines 84-86) is environmental and out of scope; on a duplicate
key the REPLACE succeeds, so the function returns True. -/
def add_sync (db : List SyncRecord) (r : SyncRecord) :
    List SyncRecord × Bool :=
  (r :: db.filter (fun x =>
      (x.reka_video_id != r.reka_video_id) &&
      (x.local_filename != r.local_filename)), true)

/-- One local inventory entry (web_app.py lines 104-111). -/
structure LocalFile where
  filename : String
  filepath : String
  size : ℤ
  modified : ℚ
  duration : ℚ
  fps : ℚ
deriving DecidableEq

/-- One remote catalog entry as used by list_all_videos.  video_id = ""
models a falsy/missing video_id (skipped at line 121); the metadata
video_name and title fields use "" for a falsy value as well. -/
structure RekaVideo where
  video_id : String
  url : Option String
  indexing_status : Option String
  meta_video_name : Option String
  meta_title : Option String
deriving DecidableEq

/-- A unified video entry (web_app.py lines 144-221). -/
structure Entry where
  id : String
  name : String
  source : String
  reka_video_id : Option String
  local_filename : Option String
  local_filepath : Option String
  reka_url : Option String
  reka_indexing_status : Option String
  duration : Option ℚ
  fps : Option ℚ
  size : Option ℤ
  modified : Option ℚ
  can_select : Bool
  can_download : Bool
  can_delete_reka : Bool
  can_delete_local : Bool
  can_refresh_status : Bool
deriving DecidableEq

/-- Python `a or b` over optional strings: falsy (None or "") falls
through to b. -/
def pyOrStr (a : Option String) (b : String) : String :=
  match a with
  | none => b
  | some s => if s = "" then b else s

/-- Dict lookup local_files.get(filename) (web_app.py line 140). -/
def findLocal (locals : List LocalFile) (name : String) : Option LocalFile :=
  locals.find? (fun lf => lf.filename == name)

/-- Dict lookup reka_videos.get(reka_id) (web_app.py line 139). -/
def findReka (rekas : List RekaVideo) (id : String) : Option RekaVideo :=
  rekas.find? (fun rv => rv.video_id == id)

/-- The fully-synced entry built at lines 144-162: all metadata comes from
the sync record and the local file; the remote snapshot entry only gates
the branch. -/
def syncedEntry (r : SyncRecord) (lf : LocalFile) : Entry where
  id := r.reka_video_id
  name := r.video_name
  source := "synced"
  reka_video_id := some r.reka_video_id
  local_filename := some r.local_filename
  local_filepath := some lf.filepath
  reka_url := r.reka_url
  reka_indexing_status := r.reka_indexing_status
  duration := some lf.duration
  fps := some lf.fps
  size := some lf.size
  modified := some lf.modified
  can_select := r.reka_indexing_status == some "indexed"
  can_download := false
  can_delete_reka := true
  can_delete_local := true
  can_refresh_status := r.reka_indexing_status != some "indexed"

/-- The Reka-only entry built at lines 173-198.  reka_indexing_status uses
dict-get with default "unknown"; can_download / can_refresh_status compare
the raw get (None ≠ "indexed" is true). -/
def rekaOnlyEntry (rv : RekaVideo) : Entry where
  id := rv.video_id
  name := pyOrStr rv.meta_video_name (pyOrStr rv.meta_title "Unnamed Video")
  source := "reka_only"
  reka_video_id := some rv.video_id
  local_filename := none
  local_filepath := none
  reka_url := rv.url
  reka_indexing_status := some (rv.indexing_status.getD "unknown")
  duration := none
  fps := none
  size := none
  modified := none
  can_select := false
  can_download := rv.indexing_status == some "indexed"
  can_delete_reka := true
  can_delete_local := false
  can_refresh_status := rv.indexing_status != some "indexed"

/-- The local-only entry built at lines 201-221. -/
def localOnlyEntry (lf : LocalFile) : Entry where
  id := lf.filename
  name := lf.filename
  source := "local_only"
  reka_video_id := none
  local_filename := some lf.filename
  local_filepath := some lf.filepath
  reka_url := none
  reka_indexing_status := none
  duration := some lf.duration
  fps := some lf.fps
  size := some lf.size
  modified := some lf.modified
  can_select := false
  can_download := false
  can_delete_reka := false
  can_delete_local := true
  can_refresh_status := false

/-- A corrective Sync Store mutation issued during the pass:
delete_sync_by_reka_id (line 167) or delete_sync_by_filename (line 170). -/
inductive DelOp where
  | byRekaId (id : String)
  | byFilename (name : String)
deriving DecidableEq

/-- Whether a stored record survives one delete operation. -/
def survives (r : SyncRecord) : DelOp → Bool
  | .byRekaId id => r.reka_video_id != id
  | .byFilename n => r.local_filename != n

/-- Effect of one delete statement on the table. -/
def applyDelete (db : List SyncRecord) (op : DelOp) : List SyncRecord :=
  db.filter (fun r => survives r op)

/-- Effect of the ordered delete statements issued during a pass.  The
pass iterates over a pre-fetched snapshot, so the deletes only shrink the
table. -/
def applyDeletes (db : List SyncRecord) (ops : List DelOp) : List SyncRecord :=
  ops.foldl applyDelete db

/-- Accumulated state of the sync-record loop (web_app.py lines 130-132):
emitted entries, claimed reka ids and filenames, and the delete
operations issued so far, each in program order. -/
structure PassState where
  entries : List Entry
  processedRekaIds : List String
  processedFilenames : List String
  deletes : List DelOp
deriving DecidableEq

/-- The sync-record loop (web_app.py lines 135-170).  Both present: emit a
synced entry and claim both keys.  Remote present, local absent: delete by
reka id, claim nothing, emit nothing.  Remote absent, local present:
delete by filename.  Both absent: the if/elif chain has no matching branch
and the record is left untouched. -/
def syncPass (rekas : List RekaVideo) (locals : List LocalFile) :
    List SyncRecord → PassState
  | [] => ⟨[], [], [], []⟩
  | r :: rest =>
    let st := syncPass rekas locals rest
    match findReka rekas r.reka_video_id, findLocal locals r.local_filename with
    | some _, some lf =>
      ⟨syncedEntry r lf :: st.entries, r.reka_video_id :: st.processedRekaIds,
        r.local_filename :: st.processedFilenames, st.deletes⟩
    | some _, none =>
      ⟨st.entries, st.processedRekaIds, st.processedFilenames,
        .byRekaId r.reka_video_id :: st.deletes⟩
    | none, some _ =>
      ⟨st.entries, st.processedRekaIds, st.processedFilenames,
        .byFilename r.local_filename :: st.deletes⟩
    | none, none => st

/-- The Reka-only loop (web_app.py lines 173-198). -/
def rekaOnlyEntries (rekas : List RekaVideo) (claimed : List String) :
    List Entry :=
  rekas.filterMap (fun rv =>
    if rv.video_id ∈ claimed then none else some (rekaOnlyEntry rv))

/-- The local-only loop (web_app.py lines 201-221). -/
def localOnlyEntries (locals : List LocalFile) (claimed : List String) :
    List Entry :=
  locals.filterMap (fun lf =>
    if lf.filename ∈ claimed then none else some (localOnlyEntry lf))

/-- Sort key of line 224: (-(modified or 0), name), ascending.  Python
`or 0` maps both None and 0 to 0, which -(getD 0) reproduces. -/
def entryKeyLe (a b : Entry) : Bool :=
  decide (-(a.modified.getD 0) < -(b.modified.getD 0)) ||
    (decide (-(a.modified.getD 0) = -(b.modified.getD 0)) &&
      decide (a.name ≤ b.name))

/-- Stable insertion into an entryKeyLe-sorted list. -/
def insertSorted (x : Entry) : List Entry → List Entry
  | [] => [x]
  | y :: l => if entryKeyLe x y then x :: y :: l else y :: insertSorted x l

/-- The stable ascending sort of line 224 (Python list.sort is stable; a
stable sort is uniquely determined by the key, so insertion sort models
it). -/
def sortEntries (l : List Entry) : List Entry := l.foldr insertSorted []

/-- Result of one reconciliation pass: the JSON-listed entries, the Sync
Store contents after the pass, and the delete operations performed. -/
structure ReconcileResult where
  entries : List Entry
  db : List SyncRecord
  deletes : List DelOp
deriving DecidableEq

/-- list_all_videos (web_app.py lines 78-226) given the three snapshots:
the local-file dict (distinct filenames, listdir order), the Reka dict
(distinct video ids, insertion order) and the pre-fetched sync-record
listing. -/
def list_all_videos (locals : List LocalFile) (rekas : List RekaVideo)
    (db : List SyncRecord) : ReconcileResult :=
  let st := syncPass rekas locals db
  let all := st.entries ++ rekaOnlyEntries rekas st.processedRekaIds ++
    localOnlyEntries locals st.processedFilenames
  ⟨sortEntries all, applyDeletes db st.deletes, st.deletes⟩

/-- Result of reka_service.list_videos (reka_service.py lines 30-46):
either the payload's results list or an error string. -/
inductive RekaListResult where
  | ok (results : List RekaVideo)
  | err (msg : String)
deriving DecidableEq

/-- One step of the dict build at web_app.py line 122: insertion keeps the
first position of an existing key and overwrites its value. -/
def dictInsert (d : List RekaVideo) (v : RekaVideo) : List RekaVideo :=
  if d.any (fun w => w.video_id == v.video_id) then
    d.map (fun w => if w.video_id == v.video_id then v else w)
  else d ++ [v]

/-- The reka_videos dict build (web_app.py lines 115-122): on an error
result there is no 'videos' key and the dict stays empty; otherwise each
result with a truthy video_id is inserted. -/
def rekaVideosOf : RekaListResult → List RekaVideo
  | .err _ => []
  | .ok results =>
    results.foldl (fun d v => if v.video_id == "" then d else dictInsert d v) []

/-- The /videos/list endpoint as a function of the raw remote fetch
result (web_app.py lines 78-226 with reka_service.list_videos). -/
def listAllVideosEndpoint (locals : List LocalFile) (res : RekaListResult)
    (db : List SyncRecord) : ReconcileResult :=
  list_all_videos locals (rekaVideosOf res) db

/-!
Embedding of sanitize_filename (web_app.py lines 38-57).  The regex
character classes \w and \s are modelled for ASCII text: \w is letters,
digits and underscore; \s is the six ASCII whitespace characters.
-/

/-- ASCII model of the regex class \w: alphanumeric or underscore. -/
def isPyWordChar (c : Char) : Bool := c.isAlphanum || c == '_'

/-- ASCII model of the regex class \s. -/
def isPySpace (c : Char) : Bool :=
  c == ' ' || c == '\t' || c == '\n' || c == '\r' || c == '\x0B' || c == '\x0C'

/-- A character matched by the class [-\s]: hyphen or whitespace. -/
def isSepChar (c : Char) : Bool := isPySpace c || c == '-'

/-- str.strip(): drop leading and trailing whitespace. -/
def stripChars (l : List Char) : List Char :=
  ((l.dropWhile isPySpace).reverse.dropWhile isPySpace).reverse

/-- re.sub with pattern [-\s]+ and replacement _, as a left-to-right state
machine: the first character of each maximal separator run emits one
underscore, the rest of the run emits nothing. -/
def collapseSeps (inRun : Bool) : List Char → List Char
  | [] => []
  | c :: cs =>
    if isSepChar c then
      if inRun then collapseSeps true cs else '_' :: collapseSeps true cs
    else c :: collapseSeps false cs

/-- str.split('-')[0]: the segment before the first hyphen. -/
def firstSegment (s : String) : String :=
  String.mk (s.data.takeWhile (fun c => c != '-'))

/-- sanitize_filename (web_app.py lines 38-57): keep only \w, \s and
hyphen characters, strip, lower-case, collapse separator runs to single
underscores, truncate to 80 characters, then append an underscore, the
remote id's first hyphen-separated segment, and ".mp4". -/
def sanitize_filename (video_name reka_video_id : String) : String :=
  let s1 := video_name.data.filter
    (fun c => isPyWordChar c || isPySpace c || c == '-')
  let s2 := (stripChars s1).map Char.toLower
  let s3 := collapseSeps false s2
  String.mk (s3.take 80 ++ '_' :: (reka_video_id.data.takeWhile
    (fun c => c != '-')) ++ ".mp4".data)

/-!
Claim theorems.
-/

/-- C8: the spec requires that a reported frame rate of zero must not
divide by zero and must yield a sentinel zero duration, but both
extractors compute total_frames / fps unguarded (keyframe_extractor.py
lines 44 and 160): at the failing input fps = 0 the run raises
ZeroDivisionError instead of proceeding with a zero duration, decoding no
frame and writing nothing.  (The intent is visible in web_app.py, which
guards the same computation with `if fps > 0 else 0` at lines 101, 278,
369 and 449.) -/
theorem fps_zero_raises_zero_division :
    extract_keyframes (fun _ _ => 0) true 0 300 (List.range 5) (3/10) 100
      = .error .zeroDivision ∧
    extract_frames_at_timestamps true 0 300 (fun _ => true) [1] 3
      = ⟨[], false, .error .zeroDivision⟩ :=
  ⟨rfl, rfl⟩

/-- Concrete records used for the add_sync and orphan scenarios. -/
def rec0 : SyncRecord :=
  ⟨"id-1", "a.mp4", "A", none, none⟩

def rec1 : SyncRecord :=
  ⟨"id-1", "b.mp4", "B", none, none⟩

/-- C1: counterexample — a write via add_sync whose reka_video_id equals
the key of the already-stored record rec0 is not rejected: the call
succeeds (returns true) and the pre-existing record is replaced by the new
one, so the store no longer contains rec0. -/
theorem add_sync_duplicate_replaces :
    rec1.reka_video_id = rec0.reka_video_id ∧
    (add_sync [rec0] rec1).2 = true ∧
    (add_sync [rec0] rec1).1 = [rec1] ∧
    rec0 ∉ (add_sync [rec0] rec1).1 := by
  refine ⟨rfl, rfl, rfl, ?_⟩
  decide

/-- C1 amended: add_sync is an insert-or-replace upsert, not a rejecting
write: every call succeeds, stores the new record, removes every
pre-existing record sharing either key, and keeps every record sharing
neither key.  (Duplicate rejection is performed by callers through
check_duplicate before the side-effecting operation, per web_app.py lines
254-256.) -/
theorem add_sync_upsert (db : List SyncRecord) (r : SyncRecord) :
    (add_sync db r).2 = true ∧
    r ∈ (add_sync db r).1 ∧
    (∀ x ∈ (add_sync db r).1, x = r ∨
      (x.reka_video_id ≠ r.reka_video_id ∧
        x.local_filename ≠ r.local_filename)) ∧
    (∀ x ∈ db, x.reka_video_id ≠ r.reka_video_id →
      x.local_filename ≠ r.local_filename → x ∈ (add_sync db r).1) := by
  refine ⟨rfl, List.mem_cons_self r _, ?_, ?_⟩
  · intro x hx
    rcases List.mem_cons.mp hx with h | h
    · exact Or.inl h
    · right
      have hp := (List.mem_filter.mp h).2
      simp only [Bool.and_eq_true, bne_iff_ne] at hp
      exact hp
  · intro x hx h1 h2
    refine List.mem_cons.mpr (Or.inr (List.mem_filter.mpr ⟨hx, ?_⟩))
    simp only [Bool.and_eq_true, bne_iff_ne]
    exact ⟨h1, h2⟩

/-- C1 amended, witnessed at the concrete duplicate write. -/
theorem add_sync_upsert_witness :
    (add_sync [rec0] rec1).2 = true ∧
    rec1 ∈ (add_sync [rec0] rec1).1 ∧
    (∀ x ∈ (add_sync [rec0] rec1).1, x = rec1 ∨
      (x.reka_video_id ≠ rec1.reka_video_id ∧
        x.local_filename ≠ rec1.local_filename)) ∧
    (∀ x ∈ [rec0], x.reka_video_id ≠ rec1.reka_video_id →
      x.local_filename ≠ rec1.local_filename →
      x ∈ (add_sync [rec0] rec1).1) :=
  add_sync_upsert [rec0] rec1

/-- C9: counterexample — two distinct remote ids that share their first
hyphen-separated segment produce identical filenames, so the stated
per-remote-id uniqueness fails; moreover the implemented transform keeps
underscores, which the stated transform (strip non-alphanumerics except
spaces and hyphens) would remove. -/
theorem sanitize_filename_collision :
    sanitize_filename "v" "a-1" = sanitize_filename "v" "a-2" ∧
    ("a-1" : String) ≠ "a-2" ∧
    sanitize_filename "a_b" "x" = "a_b_x.mp4" ∧
    sanitize_filename "a_b" "x" ≠ "ab_x.mp4" := by
  refine ⟨rfl, ?_, rfl, ?_⟩ <;> decide

/-- C9 amended: the derived filename is the deterministic implemented
transform (lower-case; keep word characters, spaces and hyphens; strip;
collapse whitespace/hyphen runs to single underscores; truncate to 80
characters; append the remote id's first hyphen-separated segment and
".mp4"), and it is collision-free only per first id segment: for any
display name, remote ids with distinct first segments yield distinct
filenames. -/
theorem sanitize_filename_injective_on_first_segment
    (name id1 id2 : String)
    (h : firstSegment id1 ≠ firstSegment id2) :
    sanitize_filename name id1 ≠ sanitize_filename name id2 := by
  intro hEq
  apply h
  have hl := congrArg String.data hEq
  simp only [sanitize_filename] at hl
  have h2 := List.append_cancel_left (List.append_cancel_right hl)
  have h3 : id1.data.takeWhile (fun c => c != '-')
      = id2.data.takeWhile (fun c => c != '-') := by
    injection h2
  simp only [firstSegment]
  exact congrArg String.mk h3

/-- C9 amended, witnessed at remote ids with distinct first segments. -/
theorem sanitize_filename_injective_on_first_segment_witness :
    firstSegment "a-1" ≠ firstSegment "b-2" ∧
    sanitize_filename "v" "a-1" ≠ sanitize_filename "v" "b-2" :=
  ⟨by decide, sanitize_filename_injective_on_first_segment "v" "a-1" "b-2"
    (by decide)⟩

/-- C5: any timestamp list containing an out-of-range timestamp makes
extract_frames_at_timestamps raise the validation error before any frame
or manifest write: zero frames are written, no manifest is produced, and
the result is the out-of-range ValueError — even when the remaining
timestamps are valid. -/
theorem timestamp_validation_all_or_nothing
    (fps : ℚ) (totalFrames : ℕ) (readable : ℤ → Bool)
    (timestamps : List ℚ) (k : ℕ) (hfps : 0 < fps)
    (hbad : ∃ t ∈ timestamps, t < 0 ∨ (totalFrames : ℚ) / fps < t) :
    (extract_frames_at_timestamps true fps totalFrames readable
        timestamps k).written = [] ∧
    (extract_frames_at_timestamps true fps totalFrames readable
        timestamps k).manifestWritten = false ∧
    ∃ b, (extract_frames_at_timestamps true fps totalFrames readable
        timestamps k).result = .error (.tsOutOfRange b) := by
  have hne : fps ≠ 0 := ne_of_gt hfps
  have hfind : ∃ b, firstBadTimestamp ((totalFrames : ℚ) / fps) timestamps
      = some b := by
    rcases hbad with ⟨t, ht, hcond⟩
    rcases hsome : firstBadTimestamp ((totalFrames : ℚ) / fps) timestamps with
      _ | b
    · exfalso
      have hall := List.find?_eq_none.mp hsome t ht
      simp only [Bool.or_eq_true, decide_eq_true_eq, not_or] at hall
      rcases hcond with hcl | hcr
      · exact hall.1 hcl
      · exact hall.2 hcr
    · exact ⟨b, rfl⟩
  rcases hfind with ⟨b, hb⟩
  simp [extract_frames_at_timestamps, hne, hb]

/-- C5, witnessed: timestamps [2, 15] against a 10-second video (fps 1,
10 frames) abort with the validation error for 15 and write nothing,
although 2 is valid. -/
theorem timestamp_validation_all_or_nothing_witness :
    (0 : ℚ) < 1 ∧
    ((extract_frames_at_timestamps true 1 10 (fun _ => true)
        [2, 15] 3).written = [] ∧
      (extract_frames_at_timestamps true 1 10 (fun _ => true)
        [2, 15] 3).manifestWritten = false ∧
      ∃ b, (extract_frames_at_timestamps true 1 10 (fun _ => true)
        [2, 15] 3).result = .error (.tsOutOfRange b)) :=
  ⟨by norm_num, timestamp_validation_all_or_nothing 1 10 (fun _ => true)
    [2, 15] 3 (by norm_num) ⟨15, by decide, by norm_num⟩⟩

/-- The loop's target indices coincide with the spec's offset span
[-floor((k-1)/2), k - 1 - floor((k-1)/2)] around the center. -/
lemma attemptedTargets_eq_spec (k : ℕ) (hk : 1 ≤ k) (center : ℤ) :
    attemptedTargets k center = specAttemptedTargets k center := by
  unfold attemptedTargets targetOffsets specAttemptedTargets
  rw [List.map_map]
  apply List.map_congr_left
  intro j hj
  simp only [Function.comp_apply]
  omega

/-- For k = 3 the attempted indices around center F are F-1, F, F+1. -/
lemma attemptedTargets_three (F : ℤ) :
    attemptedTargets 3 F = [F - 1, F, F + 1] := by
  have h3 : targetOffsets 3 = [-1, 0, 1] := by decide
  simp only [attemptedTargets, h3, List.map_cons, List.map_nil]
  norm_num
  omega

/-- Every frame recorded for one timestamp is in bounds, came from one of
the loop offsets, and sits at center + offset for that timestamp. -/
lemma mem_framesAtTimestamp (fps : ℚ) (totalFrames : ℕ)
    (readable : ℤ → Bool) (k : ℕ) (tsIdx : ℕ) (t : ℚ) :
    ∀ fr ∈ framesAtTimestamp fps totalFrames readable k tsIdx t,
      0 ≤ fr.frameNumber ∧ fr.frameNumber < (totalFrames : ℤ) ∧
      fr.offsetFromTarget ∈ targetOffsets k ∧
      fr.targetTimestamp = t ∧
      fr.frameNumber = pyTrunc (t * fps) + fr.offsetFromTarget := by
  intro fr hfr
  simp only [framesAtTimestamp] at hfr
  rcases List.mem_filterMap.mp hfr with ⟨i, hi, hf⟩
  by_cases hb : pyTrunc (t * fps) + i < 0 ∨
      (totalFrames : ℤ) ≤ pyTrunc (t * fps) + i
  · simp [hb] at hf
  · by_cases hr : readable (pyTrunc (t * fps) + i) = false
    · simp [hb, hr] at hf
    · simp only [if_neg hb, if_neg hr, Option.some.injEq] at hf
      push_neg at hb
      subst hf
      exact ⟨hb.1, hb.2, hi, rfl, rfl⟩

/-- Lifting the per-timestamp facts through the enumerate loop. -/
lemma mem_tsLoop (fps : ℚ) (totalFrames : ℕ) (readable : ℤ → Bool)
    (k : ℕ) :
    ∀ (l : List ℚ) (idx : ℕ) (fr : TsFrame),
      fr ∈ tsLoop fps totalFrames readable k idx l →
      0 ≤ fr.frameNumber ∧ fr.frameNumber < (totalFrames : ℤ) ∧
      fr.offsetFromTarget ∈ targetOffsets k ∧
      fr.frameNumber = pyTrunc (fr.targetTimestamp * fps) +
        fr.offsetFromTarget := by
  intro l
  induction l with
  | nil => intro idx fr hfr; simp [tsLoop] at hfr
  | cons t rest ih =>
    intro idx fr hfr
    simp only [tsLoop] at hfr
    rcases List.mem_append.mp hfr with h | h
    · obtain ⟨h1, h2, h3, h4, h5⟩ :=
        mem_framesAtTimestamp fps totalFrames readable k idx t fr h
      exact ⟨h1, h2, h3, by rw [h4]; exact h5⟩
    · exact ih (idx + 1) fr h

/-- C7: with a valid timestamp list and k = frames_per_timestamp ≥ 1, the
indices the loop attempts for a center frame are exactly the spec's span
center + [-floor((k-1)/2), k - 1 - floor((k-1)/2)] (for k = 3 and center
F exactly F-1, F, F+1); attempted indices outside [0, total_frames) are
skipped without aborting: the run completes, writes its manifest, and
every recorded frame is an in-bounds center + offset frame. -/
theorem timestamp_offsets_and_skips
    (fps : ℚ) (totalFrames : ℕ) (readable : ℤ → Bool)
    (timestamps : List ℚ) (k : ℕ) (hk : 1 ≤ k) (hfps : 0 < fps)
    (hvalid : ∀ t ∈ timestamps, 0 ≤ t ∧ t ≤ (totalFrames : ℚ) / fps) :
    (∀ center : ℤ,
      attemptedTargets k center = specAttemptedTargets k center) ∧
    (∀ F : ℤ, attemptedTargets 3 F = [F - 1, F, F + 1]) ∧
    (extract_frames_at_timestamps true fps totalFrames readable
      timestamps k).result = .ok () ∧
    (extract_frames_at_timestamps true fps totalFrames readable
      timestamps k).manifestWritten = true ∧
    (∀ fr ∈ (extract_frames_at_timestamps true fps totalFrames readable
        timestamps k).written,
      0 ≤ fr.frameNumber ∧ fr.frameNumber < (totalFrames : ℤ) ∧
      fr.offsetFromTarget ∈ targetOffsets k ∧
      fr.frameNumber = pyTrunc (fr.targetTimestamp * fps) +
        fr.offsetFromTarget) := by
  have hne : fps ≠ 0 := ne_of_gt hfps
  have hnone : firstBadTimestamp ((totalFrames : ℚ) / fps) timestamps
      = none := by
    apply List.find?_eq_none.mpr
    intro t ht
    simp only [Bool.or_eq_true, decide_eq_true_eq, not_or, not_lt]
    exact ⟨(hvalid t ht).1, (hvalid t ht).2⟩
  have hred : extract_frames_at_timestamps true fps totalFrames readable
      timestamps k
      = ⟨tsLoop fps totalFrames readable k 0 timestamps, true, .ok ()⟩ := by
    simp [extract_frames_at_timestamps, hne, hnone]
  refine ⟨fun center => attemptedTargets_eq_spec k hk center,
    fun F => attemptedTargets_three F, ?_, ?_, ?_⟩
  · rw [hred]
  · rw [hred]
  · intro fr hfr
    rw [hred] at hfr
    exact mem_tsLoop fps totalFrames readable k timestamps 0 fr hfr

/-- C7, witnessed: fps 2, 10 frames, one valid timestamp 1s, k = 3. -/
theorem timestamp_offsets_and_skips_witness :
    1 ≤ 3 ∧
    ((∀ center : ℤ,
        attemptedTargets 3 center = specAttemptedTargets 3 center) ∧
      (∀ F : ℤ, attemptedTargets 3 F = [F - 1, F, F + 1]) ∧
      (extract_frames_at_timestamps true 2 10 (fun _ => true)
        [1] 3).result = .ok () ∧
      (extract_frames_at_timestamps true 2 10 (fun _ => true)
        [1] 3).manifestWritten = true ∧
      (∀ fr ∈ (extract_frames_at_timestamps true 2 10 (fun _ => true)
          [1] 3).written,
        0 ≤ fr.frameNumber ∧ fr.frameNumber < (10 : ℤ) ∧
        fr.offsetFromTarget ∈ targetOffsets 3 ∧
        fr.frameNumber = pyTrunc (fr.targetTimestamp * 2) +
          fr.offsetFromTarget)) :=
  ⟨by norm_num, timestamp_offsets_and_skips 2 10 (fun _ => true) [1] 3
    (by norm_num) (by norm_num)
    (by intro t ht; simp only [List.mem_singleton] at ht; subst ht; norm_num)⟩

/-- Loop invariants of the scene read loop: the saved counter equals the
number of emitted keyframes, it never exceeds the cap, and when the cap is
reached the loop breaks at the emitting iteration, so the frame counter
ends at the last emitted keyframe's index. -/
lemma sceneLoop_props (corr : ℕ → ℕ → ℚ) (fps threshold : ℚ)
    (maxFrames : ℕ) :
    ∀ (l : List ℕ) (s : SceneState),
      s.savedCount = s.keyframes.length → s.savedCount ≤ maxFrames →
      ((sceneLoop corr fps threshold maxFrames l s).savedCount
          = (sceneLoop corr fps threshold maxFrames l s).keyframes.length ∧
        (sceneLoop corr fps threshold maxFrames l s).savedCount
          ≤ maxFrames ∧
        (s.savedCount < maxFrames →
          (sceneLoop corr fps threshold maxFrames l s).savedCount
            = maxFrames →
          ∃ kf, (sceneLoop corr fps threshold maxFrames l
              s).keyframes.getLast? = some kf ∧
            (sceneLoop corr fps threshold maxFrames l s).frameCount
              = kf.frame)) := by
  intro l
  induction l with
  | nil =>
    intro s h1 h2
    refine ⟨h1, h2, fun hlt heq => absurd heq (Nat.ne_of_lt hlt)⟩
  | cons g rest ih =>
    intro s h1 h2
    obtain ⟨prev, fc0, sc, kfs⟩ := s
    simp only at h1 h2
    by_cases h5 : (fc0 + 1) % 5 ≠ 0
    · simp only [sceneLoop, if_pos h5]
      exact ih ⟨prev, fc0 + 1, sc, kfs⟩ h1 h2
    · cases prev with
      | none =>
        simp only [sceneLoop, if_neg h5]
        by_cases hm : maxFrames ≤ sc
        · simp only [if_pos hm]
          exact ⟨h1, h2, fun hlt _ => absurd hm (Nat.not_le_of_lt hlt)⟩
        · simp only [if_neg hm]
          exact ih ⟨some g, fc0 + 1, sc, kfs⟩ h1 h2
      | some p =>
        simp only [sceneLoop, if_neg h5]
        by_cases hc : corr p g < 1 - threshold ∧ sc < maxFrames
        · simp only [if_pos hc]
          by_cases hm : maxFrames ≤ sc + 1
          · simp only [if_pos hm]
            refine ⟨by simp [h1], by omega, fun _ _ => ?_⟩
            exact ⟨⟨fc0 + 1, ((fc0 + 1 : ℕ) : ℚ) / fps⟩,
              List.getLast?_concat kfs, rfl⟩
          · simp only [if_neg hm]
            have hinv : sc + 1 = (kfs ++ [(⟨fc0 + 1,
                ((fc0 + 1 : ℕ) : ℚ) / fps⟩ : KF)]).length := by
              simp [h1]
            obtain ⟨q1, q2, q3⟩ := ih ⟨some g, fc0 + 1, sc + 1,
              kfs ++ [⟨fc0 + 1, ((fc0 + 1 : ℕ) : ℚ) / fps⟩]⟩ hinv
              (Nat.le_of_lt (Nat.lt_of_not_le hm))
            exact ⟨q1, q2, fun _ heq => q3 (Nat.lt_of_not_le hm) heq⟩
        · simp only [if_neg hc]
          by_cases hm : maxFrames ≤ sc
          · simp only [if_pos hm]
            exact ⟨h1, h2, fun hlt _ => absurd hm (Nat.not_le_of_lt hlt)⟩
          · simp only [if_neg hm]
            exact ih ⟨some g, fc0 + 1, sc, kfs⟩ h1 h2

/-- C6: extract_keyframes emits at most maxFrames keyframes for every
input stream, threshold and cap, and once the emitted count reaches the
cap it stops decoding: the total number of frames read equals the frame
index of the last emitted keyframe. -/
theorem scene_mode_cap (corr : ℕ → ℕ → ℚ) (fps threshold : ℚ)
    (totalFrames maxFrames : ℕ) (frames : List ℕ) (hfps : fps ≠ 0) :
    ∃ run, extract_keyframes corr true fps totalFrames frames threshold
        maxFrames = .ok run ∧
      run.keyframes.length ≤ maxFrames ∧
      (1 ≤ maxFrames → run.keyframes.length = maxFrames →
        ∃ kf, run.keyframes.getLast? = some kf ∧
          run.framesRead = kf.frame) := by
  have hred : extract_keyframes corr true fps totalFrames frames threshold
      maxFrames = .ok
      ⟨(sceneLoop corr fps threshold maxFrames frames
          ⟨none, 0, 0, []⟩).keyframes,
        (sceneLoop corr fps threshold maxFrames frames
          ⟨none, 0, 0, []⟩).frameCount,
        (totalFrames : ℚ) / fps, true⟩ := by
    simp [extract_keyframes, hfps]
  obtain ⟨p1, p2, p3⟩ := sceneLoop_props corr fps threshold maxFrames
    frames ⟨none, 0, 0, []⟩ rfl (Nat.zero_le _)
  refine ⟨_, hred, ?_, ?_⟩
  · exact p1 ▸ p2
  · intro hmax hlen
    exact p3 hmax (p1.trans hlen)

/-- C6, witnessed: a 20-frame stream whose sampled histograms always
correlate at 0 against threshold 0.3, cap 2 — the run emits the keyframes
at frames 10 and 15 and stops reading at frame 15. -/
theorem scene_mode_cap_witness :
    ∃ run, extract_keyframes (fun _ _ => 0) true 30 600 (List.range 20)
        (3 / 10) 2 = .ok run ∧
      run.keyframes.length ≤ 2 ∧
      (1 ≤ 2 → run.keyframes.length = 2 →
        ∃ kf, run.keyframes.getLast? = some kf ∧
          run.framesRead = kf.frame) :=
  scene_mode_cap (fun _ _ => 0) 30 (3 / 10) 600 2 (List.range 20)
    (by norm_num)

/-- Classification of one sync record against the two snapshots: the
synced entry it emits when both sides are present. -/
def entryOfRecord (rekas : List RekaVideo) (locals : List LocalFile)
    (r : SyncRecord) : Option Entry :=
  match findReka rekas r.reka_video_id, findLocal locals r.local_filename with
  | some _, some lf => some (syncedEntry r lf)
  | _, _ => none

/-- Classification of one sync record: the corrective delete it issues
when exactly one side is present (web_app.py lines 165-170); the
both-absent case issues none. -/
def delOfRecord (rekas : List RekaVideo) (locals : List LocalFile)
    (r : SyncRecord) : Option DelOp :=
  match findReka rekas r.reka_video_id, findLocal locals r.local_filename with
  | some _, some _ => none
  | some _, none => some (.byRekaId r.reka_video_id)
  | none, some _ => some (.byFilename r.local_filename)
  | none, none => none

/-- The reka id a record claims (only when both sides are present). -/
def claimedIdOf (rekas : List RekaVideo) (locals : List LocalFile)
    (r : SyncRecord) : Option String :=
  match findReka rekas r.reka_video_id, findLocal locals r.local_filename with
  | some _, some _ => some r.reka_video_id
  | _, _ => none

/-- The filename a record claims (only when both sides are present). -/
def claimedNameOf (rekas : List RekaVideo) (locals : List LocalFile)
    (r : SyncRecord) : Option String :=
  match findReka rekas r.reka_video_id, findLocal locals r.local_filename with
  | some _, some _ => some r.local_filename
  | _, _ => none

/-- A record is kept by the healing pass iff it issues no delete. -/
def keepRecord (rekas : List RekaVideo) (locals : List LocalFile)
    (r : SyncRecord) : Bool :=
  (delOfRecord rekas locals r).isNone

/-- The sync-record loop componentwise: each output is the filterMap of
the per-record classification over the listing. -/
lemma syncPass_eq (rekas : List RekaVideo) (locals : List LocalFile) :
    ∀ l : List SyncRecord,
      syncPass rekas locals l =
        ⟨l.filterMap (entryOfRecord rekas locals),
          l.filterMap (claimedIdOf rekas locals),
          l.filterMap (claimedNameOf rekas locals),
          l.filterMap (delOfRecord rekas locals)⟩ := by
  intro l
  induction l with
  | nil => rfl
  | cons r rest ih =>
    simp only [syncPass, ih]
    rcases h1 : findReka rekas r.reka_video_id with _ | rv <;>
      rcases h2 : findLocal locals r.local_filename with _ | lf <;>
      simp [entryOfRecord, claimedIdOf, claimedNameOf, delOfRecord,
        h1, h2, List.filterMap_cons]

/-- A record's own delete operation does not spare it. -/
lemma delOfRecord_self_hit (rekas : List RekaVideo)
    (locals : List LocalFile) (r : SyncRecord) (op : DelOp)
    (h : delOfRecord rekas locals r = some op) :
    survives r op = false := by
  unfold delOfRecord at h
  rcases h1 : findReka rekas r.reka_video_id with _ | rv <;>
    rcases h2 : findLocal locals r.local_filename with _ | lf <;>
    simp [h1, h2] at h <;> simp [← h, survives]

/-- A delete issued by a record targets one of that record's two keys. -/
lemma delOfRecord_shape (rekas : List RekaVideo) (locals : List LocalFile)
    (r : SyncRecord) (op : DelOp)
    (h : delOfRecord rekas locals r = some op) :
    op = .byRekaId r.reka_video_id ∨ op = .byFilename r.local_filename := by
  unfold delOfRecord at h
  rcases h1 : findReka rekas r.reka_video_id with _ | rv <;>
    rcases h2 : findLocal locals r.local_filename with _ | lf <;>
    simp [h1, h2] at h
  · exact Or.inr h.symm
  · exact Or.inl h.symm

/-- A record that issues a delete emits no synced entry and claims no
keys. -/
lemma not_keep_classifies_none (rekas : List RekaVideo)
    (locals : List LocalFile) (r : SyncRecord)
    (h : keepRecord rekas locals r = false) :
    entryOfRecord rekas locals r = none ∧
    claimedIdOf rekas locals r = none ∧
    claimedNameOf rekas locals r = none := by
  unfold keepRecord delOfRecord at h
  unfold entryOfRecord claimedIdOf claimedNameOf
  rcases h1 : findReka rekas r.reka_video_id with _ | rv <;>
    rcases h2 : findLocal locals r.local_filename with _ | lf <;>
    simp [h1, h2] at h ⊢

/-- Applying the batched deletes filters the table by survival of every
operation. -/
lemma applyDeletes_eq_filter :
    ∀ (ops : List DelOp) (db : List SyncRecord),
      applyDeletes db ops = db.filter (fun r => ops.all (survives r)) := by
  intro ops
  induction ops with
  | nil => intro db; simp [applyDeletes]
  | cons op rest ih =>
    intro db
    have h1 : applyDeletes db (op :: rest)
        = applyDeletes (applyDelete db op) rest := rfl
    rw [h1, ih, applyDelete, List.filter_filter]
    apply List.filter_congr
    intro r hr
    simp [List.all_cons, Bool.and_comm]

/-- The uniqueness invariant the video_sync table enforces through its
UNIQUE columns: all stored records have pairwise distinct reka ids and
pairwise distinct filenames. -/
def DistinctKeys (db : List SyncRecord) : Prop :=
  db.Pairwise (fun a b => a.reka_video_id ≠ b.reka_video_id ∧
    a.local_filename ≠ b.local_filename)

instance (db : List SyncRecord) : Decidable (DistinctKeys db) := by
  unfold DistinctKeys
  infer_instance

lemma distinctKeys_symmetric :
    Symmetric (fun a b : SyncRecord => a.reka_video_id ≠ b.reka_video_id ∧
      a.local_filename ≠ b.local_filename) :=
  fun _ _ h => ⟨h.1.symm, h.2.symm⟩

/-- Under distinct keys, a stored record survives the whole batch of
deletes exactly when it issues none itself. -/
lemma survivesAll_eq_keep (rekas : List RekaVideo)
    (locals : List LocalFile) (db : List SyncRecord)
    (hdist : DistinctKeys db) (r : SyncRecord) (hr : r ∈ db) :
    (db.filterMap (delOfRecord rekas locals)).all (survives r)
      = keepRecord rekas locals r := by
  rcases hK : delOfRecord rekas locals r with _ | op
  · simp only [keepRecord, hK, Option.isNone_none]
    apply List.all_eq_true.mpr
    intro op hop
    rcases List.mem_filterMap.mp hop with ⟨r2, hr2, hK2⟩
    by_cases heq : r2 = r
    · rw [heq, hK] at hK2; exact absurd hK2 (Option.noConfusion)
    · have hne := hdist.forall distinctKeys_symmetric hr hr2
        (fun h => heq h.symm)
      rcases delOfRecord_shape rekas locals r2 op hK2 with h | h <;>
        subst h <;> simp [survives, hne.1, hne.2]
  · simp only [keepRecord, hK, Option.isNone_some]
    apply List.all_eq_false.mpr
    refine ⟨op, List.mem_filterMap.mpr ⟨r, hr, hK⟩, ?_⟩
    simp [delOfRecord_self_hit rekas locals r op hK]

/-- The Sync Store after one pass is the listing filtered to the records
that issue no delete. -/
lemma list_all_videos_db (locals : List LocalFile)
    (rekas : List RekaVideo) (db : List SyncRecord)
    (hdist : DistinctKeys db) :
    (list_all_videos locals rekas db).db
      = db.filter (keepRecord rekas locals) := by
  show applyDeletes db (syncPass rekas locals db).deletes = _
  rw [syncPass_eq, applyDeletes_eq_filter]
  exact List.filter_congr
    (fun r hr => survivesAll_eq_keep rekas locals db hdist r hr)

/-- filterMap ignores a filter that only drops elements it maps to none. -/
lemma filterMap_filter_of_none {α β : Type} (p : α → Bool)
    (g : α → Option β) (h : ∀ a, p a = false → g a = none) :
    ∀ l : List α, (l.filter p).filterMap g = l.filterMap g := by
  intro l
  induction l with
  | nil => rfl
  | cons a rest ih =>
    by_cases hp : p a = true
    · simp [List.filter_cons, hp, List.filterMap_cons, ih]
    · have hp2 : p a = false := by simpa using hp
      simp [List.filter_cons, hp2, List.filterMap_cons, h a hp2, ih]

/-- Membership is preserved by the stable insertion. -/
lemma mem_insertSorted (x a : Entry) :
    ∀ l : List Entry, a ∈ insertSorted x l ↔ a = x ∨ a ∈ l := by
  intro l
  induction l with
  | nil => simp [insertSorted]
  | cons y rest ih =>
    simp only [insertSorted]
    by_cases h : entryKeyLe x y
    · simp only [if_pos h, List.mem_cons]
    · simp only [if_neg h, List.mem_cons, ih]
      tauto

/-- Membership is preserved by the sort of line 224. -/
lemma mem_sortEntries (a : Entry) :
    ∀ l : List Entry, a ∈ sortEntries l ↔ a ∈ l := by
  intro l
  induction l with
  | nil => simp [sortEntries]
  | cons x rest ih =>
    have h : sortEntries (x :: rest) = insertSorted x (sortEntries rest) :=
      rfl
    rw [h, mem_insertSorted, ih, List.mem_cons]

/-- One reconciliation pass, componentwise. -/
lemma list_all_videos_parts (locals : List LocalFile)
    (rekas : List RekaVideo) (db : List SyncRecord) :
    list_all_videos locals rekas db =
      ⟨sortEntries (db.filterMap (entryOfRecord rekas locals) ++
          rekaOnlyEntries rekas (db.filterMap (claimedIdOf rekas locals)) ++
          localOnlyEntries locals
            (db.filterMap (claimedNameOf rekas locals))),
        applyDeletes db (db.filterMap (delOfRecord rekas locals)),
        db.filterMap (delOfRecord rekas locals)⟩ := by
  simp only [list_all_videos, syncPass_eq]

/-- Inverting a synced entry: both lookups succeeded. -/
lemma entryOfRecord_some (rekas : List RekaVideo) (locals : List LocalFile)
    (r : SyncRecord) (e : Entry)
    (h : entryOfRecord rekas locals r = some e) :
    ∃ rv lf, findReka rekas r.reka_video_id = some rv ∧
      findLocal locals r.local_filename = some lf ∧
      e = syncedEntry r lf := by
  unfold entryOfRecord at h
  rcases h1 : findReka rekas r.reka_video_id with _ | rv <;>
    rcases h2 : findLocal locals r.local_filename with _ | lf <;>
    simp [h1, h2] at h
  exact ⟨rv, lf, rfl, rfl, h.symm⟩

/-- Inverting a claimed reka id: it is the record's own id and both
lookups succeeded. -/
lemma claimedIdOf_some (rekas : List RekaVideo) (locals : List LocalFile)
    (r : SyncRecord) (s : String)
    (h : claimedIdOf rekas locals r = some s) :
    s = r.reka_video_id ∧
      (findReka rekas r.reka_video_id).isSome = true ∧
      (findLocal locals r.local_filename).isSome = true := by
  unfold claimedIdOf at h
  rcases h1 : findReka rekas r.reka_video_id with _ | rv <;>
    rcases h2 : findLocal locals r.local_filename with _ | lf <;>
    simp [h1, h2] at h
  exact ⟨h.symm, rfl, rfl⟩

/-- Inverting a claimed filename. -/
lemma claimedNameOf_some (rekas : List RekaVideo) (locals : List LocalFile)
    (r : SyncRecord) (s : String)
    (h : claimedNameOf rekas locals r = some s) :
    s = r.local_filename ∧
      (findReka rekas r.reka_video_id).isSome = true ∧
      (findLocal locals r.local_filename).isSome = true := by
  unfold claimedNameOf at h
  rcases h1 : findReka rekas r.reka_video_id with _ | rv <;>
    rcases h2 : findLocal locals r.local_filename with _ | lf <;>
    simp [h1, h2] at h
  exact ⟨h.symm, rfl, rfl⟩

/-- Inverting membership in the Reka-only pass. -/
lemma mem_rekaOnlyEntries (rekas : List RekaVideo) (claimed : List String)
    (e : Entry) (h : e ∈ rekaOnlyEntries rekas claimed) :
    ∃ rv ∈ rekas, rv.video_id ∉ claimed ∧ e = rekaOnlyEntry rv := by
  rcases List.mem_filterMap.mp h with ⟨rv, hrv, hif⟩
  by_cases hc : rv.video_id ∈ claimed
  · simp [hc] at hif
  · simp only [if_neg hc, Option.some.injEq] at hif
    exact ⟨rv, hrv, hc, hif.symm⟩

/-- Inverting membership in the local-only pass. -/
lemma mem_localOnlyEntries (locals : List LocalFile)
    (claimed : List String) (e : Entry)
    (h : e ∈ localOnlyEntries locals claimed) :
    ∃ lf ∈ locals, lf.filename ∉ claimed ∧ e = localOnlyEntry lf := by
  rcases List.mem_filterMap.mp h with ⟨lf, hlf, hif⟩
  by_cases hc : lf.filename ∈ claimed
  · simp [hc] at hif
  · simp only [if_neg hc, Option.some.injEq] at hif
    exact ⟨lf, hlf, hc, hif.symm⟩

/-- C3: counterexample — for the orphaned record rec0 (remote id absent
from the empty remote snapshot, filename absent from the empty local
snapshot) the pass issues no delete and the record remains stored; only
the entry omission holds. -/
theorem reconcile_orphan_not_deleted :
    findReka [] rec0.reka_video_id = none ∧
    findLocal [] rec0.local_filename = none ∧
    (list_all_videos [] [] [rec0]).deletes = [] ∧
    rec0 ∈ (list_all_videos [] [] [rec0]).db ∧
    (list_all_videos [] [] [rec0]).entries = [] := by
  refine ⟨rfl, rfl, rfl, ?_, rfl⟩
  decide

/-- C3 amended: for every SyncRecord whose remote id is absent from the
remote snapshot and whose filename is absent from the local snapshot, the
reconciliation pass performs no deletion for that record — none of the
issued deletes touches it and it remains in the Sync Store — and emits no
UnifiedVideoEntry carrying either of its keys. -/
theorem reconcile_orphan_retained
    (locals : List LocalFile) (rekas : List RekaVideo)
    (db : List SyncRecord) (r : SyncRecord)
    (hdist : DistinctKeys db) (hr : r ∈ db)
    (hreka : findReka rekas r.reka_video_id = none)
    (hlocal : findLocal locals r.local_filename = none) :
    r ∈ (list_all_videos locals rekas db).db ∧
    (∀ op ∈ (list_all_videos locals rekas db).deletes,
      survives r op = true) ∧
    (∀ e ∈ (list_all_videos locals rekas db).entries,
      e.reka_video_id ≠ some r.reka_video_id ∧
      e.local_filename ≠ some r.local_filename) := by
  have hdel : delOfRecord rekas locals r = none := by
    simp [delOfRecord, hreka, hlocal]
  have hkeep : keepRecord rekas locals r = true := by
    simp [keepRecord, hdel]
  refine ⟨?_, ?_, ?_⟩
  · rw [list_all_videos_db locals rekas db hdist]
    exact List.mem_filter.mpr ⟨hr, hkeep⟩
  · intro op hop
    rw [list_all_videos_parts] at hop
    rcases List.mem_filterMap.mp hop with ⟨r2, hr2, hK2⟩
    by_cases heq : r2 = r
    · rw [heq, hdel] at hK2
      exact absurd hK2 (Option.noConfusion)
    · have hne := hdist.forall distinctKeys_symmetric hr hr2
        (fun h => heq h.symm)
      rcases delOfRecord_shape rekas locals r2 op hK2 with h | h <;>
        subst h <;> simp [survives, bne_iff_ne] <;>
        [exact hne.1; exact hne.2]
  · intro e he
    rw [list_all_videos_parts] at he
    rcases List.mem_append.mp ((mem_sortEntries e _).mp he) with hAB | hC
    · rcases List.mem_append.mp hAB with hA | hB
      · rcases List.mem_filterMap.mp hA with ⟨r2, hr2, hE⟩
        obtain ⟨rv, lf, hrv, hlf, he2⟩ :=
          entryOfRecord_some rekas locals r2 e hE
        by_cases heq : r2 = r
        · rw [heq, hlocal] at hlf
          exact absurd hlf (Option.noConfusion)
        · have hne := hdist.forall distinctKeys_symmetric hr hr2
            (fun h => heq h.symm)
          subst he2
          refine ⟨?_, ?_⟩ <;> simp [syncedEntry]
          · exact fun h => hne.1 h.symm
          · exact fun h => hne.2 h.symm
      · obtain ⟨rv, hrv, _, he2⟩ := mem_rekaOnlyEntries rekas _ e hB
        subst he2
        have hnv := List.find?_eq_none.mp hreka rv hrv
        simp only [beq_iff_eq] at hnv
        refine ⟨?_, ?_⟩ <;> simp [rekaOnlyEntry]
        exact hnv
    · obtain ⟨lf, hlf, _, he2⟩ := mem_localOnlyEntries locals _ e hC
      subst he2
      have hnv := List.find?_eq_none.mp hlocal lf hlf
      simp only [beq_iff_eq] at hnv
      refine ⟨?_, ?_⟩ <;> simp [localOnlyEntry]
      exact hnv

/-- C3 amended, witnessed at the orphaned record rec0 against empty
snapshots. -/
theorem reconcile_orphan_retained_witness :
    rec0 ∈ (list_all_videos [] [] [rec0]).db ∧
    (∀ op ∈ (list_all_videos [] [] [rec0]).deletes,
      survives rec0 op = true) ∧
    (∀ e ∈ (list_all_videos [] [] [rec0]).entries,
      e.reka_video_id ≠ some rec0.reka_video_id ∧
      e.local_filename ≠ some rec0.local_filename) :=
  reconcile_orphan_retained [] [] [rec0] rec0 (by decide) (by decide)
    rfl rfl

/-- C2: for a SyncRecord whose remote id is present in the remote
snapshot while its filename is absent from the local snapshot, one pass
deletes the record by remote id (the delete is issued and the record is
gone from the resulting Sync Store), emits no synced entry carrying its
remote id, and emits the remote video as a Reka-only entry in the same
pass's output list. -/
theorem reconcile_drift_remote_only
    (locals : List LocalFile) (rekas : List RekaVideo)
    (db : List SyncRecord) (r : SyncRecord) (rv : RekaVideo)
    (hdist : DistinctKeys db) (hr : r ∈ db)
    (hreka : findReka rekas r.reka_video_id = some rv)
    (hlocal : findLocal locals r.local_filename = none) :
    DelOp.byRekaId r.reka_video_id
      ∈ (list_all_videos locals rekas db).deletes ∧
    r ∉ (list_all_videos locals rekas db).db ∧
    (∀ e ∈ (list_all_videos locals rekas db).entries,
      e.source = "synced" → e.reka_video_id ≠ some r.reka_video_id) ∧
    rekaOnlyEntry rv ∈ (list_all_videos locals rekas db).entries := by
  have hdel : delOfRecord rekas locals r
      = some (.byRekaId r.reka_video_id) := by
    simp [delOfRecord, hreka, hlocal]
  have hkeep : keepRecord rekas locals r = false := by
    simp [keepRecord, hdel]
  have hrvid : rv.video_id = r.reka_video_id := by
    have := List.find?_some hreka
    simpa [beq_iff_eq] using this
  refine ⟨?_, ?_, ?_, ?_⟩
  · rw [list_all_videos_parts]
    exact List.mem_filterMap.mpr ⟨r, hr, hdel⟩
  · rw [list_all_videos_db locals rekas db hdist]
    intro hmem
    rw [(List.mem_filter.mp hmem).2] at hkeep
    exact Bool.noConfusion hkeep
  · intro e he hsrc
    rw [list_all_videos_parts] at he
    rcases List.mem_append.mp ((mem_sortEntries e _).mp he) with hAB | hC
    · rcases List.mem_append.mp hAB with hA | hB
      · rcases List.mem_filterMap.mp hA with ⟨r2, hr2, hE⟩
        obtain ⟨rv2, lf2, hrv2, hlf2, he2⟩ :=
          entryOfRecord_some rekas locals r2 e hE
        by_cases heq : r2 = r
        · rw [heq, hlocal] at hlf2
          exact absurd hlf2 (Option.noConfusion)
        · have hne := hdist.forall distinctKeys_symmetric hr hr2
            (fun h => heq h.symm)
          subst he2
          simp only [syncedEntry, ne_eq, Option.some.injEq]
          exact fun h => hne.1 h.symm
      · obtain ⟨rv2, _, _, he2⟩ := mem_rekaOnlyEntries rekas _ e hB
        subst he2
        simp [rekaOnlyEntry] at hsrc
    · obtain ⟨lf2, _, _, he2⟩ := mem_localOnlyEntries locals _ e hC
      subst he2
      simp [localOnlyEntry] at hsrc
  · rw [list_all_videos_parts]
    apply (mem_sortEntries _ _).mpr
    apply List.mem_append.mpr
    apply Or.inl
    apply List.mem_append.mpr
    apply Or.inr
    have hnot : rv.video_id
        ∉ db.filterMap (claimedIdOf rekas locals) := by
      intro hmem
      rcases List.mem_filterMap.mp hmem with ⟨r2, hr2, hc⟩
      obtain ⟨hid, _, hloc2⟩ := claimedIdOf_some rekas locals r2 _ hc
      by_cases heq : r2 = r
      · rw [heq, hlocal] at hloc2
        exact Bool.noConfusion hloc2
      · have hne := hdist.forall distinctKeys_symmetric hr hr2
          (fun h => heq h.symm)
        exact hne.1 (by rw [← hrvid, hid])
    exact List.mem_filterMap.mpr
      ⟨rv, List.mem_of_find?_eq_some hreka, by simp [hnot]⟩

/-- Concrete data for the reconciliation witnesses. -/
def wLocal : LocalFile :=
  ⟨"vid_a.mp4", "/app/uploads/vid_a.mp4", 100, 5, 10, 30⟩

def wReka : RekaVideo :=
  ⟨"rk-1", some "http://u", some "indexed", some "Vid", none⟩

def wRekaB : RekaVideo :=
  ⟨"rk-2", none, some "indexing", none, none⟩

def wSyncRec : SyncRecord :=
  ⟨"rk-1", "vid_a.mp4", "Vid", some "http://u", some "indexed"⟩

def wDriftRec : SyncRecord :=
  ⟨"rk-2", "gone.mp4", "G", none, none⟩

/-- C2, witnessed: the record wDriftRec points at remote video rk-2 whose
local file gone.mp4 has disappeared. -/
theorem reconcile_drift_remote_only_witness :
    DelOp.byRekaId wDriftRec.reka_video_id
      ∈ (list_all_videos [wLocal] [wRekaB] [wDriftRec]).deletes ∧
    wDriftRec ∉ (list_all_videos [wLocal] [wRekaB] [wDriftRec]).db ∧
    (∀ e ∈ (list_all_videos [wLocal] [wRekaB] [wDriftRec]).entries,
      e.source = "synced" →
        e.reka_video_id ≠ some wDriftRec.reka_video_id) ∧
    rekaOnlyEntry wRekaB
      ∈ (list_all_videos [wLocal] [wRekaB] [wDriftRec]).entries :=
  reconcile_drift_remote_only [wLocal] [wRekaB] [wDriftRec] wDriftRec
    wRekaB (by decide) (by decide) (by decide) (by decide)

/-- C10: when the remote catalog fetch fails, list_all_videos builds an
empty Reka dict, so the listing is byte-for-byte the one produced against
an empty remote snapshot — the response carries no annotation of the
remote error — and every sync record whose local file still exists is
classified remote-absent/local-present: its record is deleted by filename
and the file is re-listed as a local-only entry. -/
theorem remote_failure_discards_associations
    (locals : List LocalFile) (db : List SyncRecord) (msg : String)
    (r : SyncRecord) (lf : LocalFile) (hr : r ∈ db)
    (hlf : findLocal locals r.local_filename = some lf) :
    listAllVideosEndpoint locals (.err msg) db
      = list_all_videos locals [] db ∧
    DelOp.byFilename r.local_filename
      ∈ (listAllVideosEndpoint locals (.err msg) db).deletes ∧
    r ∉ (listAllVideosEndpoint locals (.err msg) db).db ∧
    localOnlyEntry lf ∈ (listAllVideosEndpoint locals (.err msg) db).entries
    := by
  have hdel : delOfRecord [] locals r
      = some (.byFilename r.local_filename) := by
    simp [delOfRecord, findReka, hlf]
  have hend : listAllVideosEndpoint locals (.err msg) db
      = list_all_videos locals [] db := rfl
  refine ⟨hend, ?_, ?_, ?_⟩ <;> rw [hend]
  · rw [list_all_videos_parts]
    exact List.mem_filterMap.mpr ⟨r, hr, hdel⟩
  · rw [list_all_videos_parts]
    intro hmem
    simp only [applyDeletes_eq_filter] at hmem
    have hall := (List.mem_filter.mp hmem).2
    have hsur := List.all_eq_true.mp hall _
      (List.mem_filterMap.mpr ⟨r, hr, hdel⟩)
    simp [survives] at hsur
  · rw [list_all_videos_parts]
    apply (mem_sortEntries _ _).mpr
    apply List.mem_append.mpr
    apply Or.inr
    have hclaimed : db.filterMap (claimedNameOf [] locals) = [] := by
      apply List.filterMap_eq_nil_iff.mpr
      intro r2 _
      simp [claimedNameOf, findReka]
    rw [hclaimed]
    exact List.mem_filterMap.mpr
      ⟨lf, List.mem_of_find?_eq_some hlf, by simp⟩

/-- C10, witnessed: one synced record whose local file is present, remote
fetch failing. -/
theorem remote_failure_discards_associations_witness :
    listAllVideosEndpoint [wLocal] (.err "boom") [wSyncRec]
      = list_all_videos [wLocal] [] [wSyncRec] ∧
    DelOp.byFilename wSyncRec.local_filename
      ∈ (listAllVideosEndpoint [wLocal] (.err "boom") [wSyncRec]).deletes ∧
    wSyncRec ∉ (listAllVideosEndpoint [wLocal] (.err "boom")
      [wSyncRec]).db ∧
    localOnlyEntry wLocal
      ∈ (listAllVideosEndpoint [wLocal] (.err "boom") [wSyncRec]).entries :=
  remote_failure_discards_associations [wLocal] [wSyncRec] "boom" wSyncRec
    wLocal (by decide) (by decide)

/-- C4: with the table's key-uniqueness invariant, running the
reconciliation pass twice against the same remote and local snapshots
yields the same entry list, leaves the Sync Store where the first pass
left it, and performs zero mutations on the second pass. -/
theorem reconciliation_idempotent (locals : List LocalFile)
    (rekas : List RekaVideo) (db : List SyncRecord)
    (hdist : DistinctKeys db) :
    (list_all_videos locals rekas
        ((list_all_videos locals rekas db).db)).entries
      = (list_all_videos locals rekas db).entries ∧
    (list_all_videos locals rekas
        ((list_all_videos locals rekas db).db)).db
      = (list_all_videos locals rekas db).db ∧
    (list_all_videos locals rekas
        ((list_all_videos locals rekas db).db)).deletes = [] := by
  have hdb1 : (list_all_videos locals rekas db).db
      = db.filter (keepRecord rekas locals) :=
    list_all_videos_db locals rekas db hdist
  have hdel2 : (db.filter (keepRecord rekas locals)).filterMap
      (delOfRecord rekas locals) = [] := by
    apply List.filterMap_eq_nil_iff.mpr
    intro r2 hr2
    have hk := (List.mem_filter.mp hr2).2
    simpa [keepRecord, Option.isNone_iff_eq_none] using hk
  have hE : (db.filter (keepRecord rekas locals)).filterMap
      (entryOfRecord rekas locals)
      = db.filterMap (entryOfRecord rekas locals) :=
    filterMap_filter_of_none _ _
      (fun a ha => (not_keep_classifies_none rekas locals a ha).1) db
  have hI : (db.filter (keepRecord rekas locals)).filterMap
      (claimedIdOf rekas locals)
      = db.filterMap (claimedIdOf rekas locals) :=
    filterMap_filter_of_none _ _
      (fun a ha => (not_keep_classifies_none rekas locals a ha).2.1) db
  have hN : (db.filter (keepRecord rekas locals)).filterMap
      (claimedNameOf rekas locals)
      = db.filterMap (claimedNameOf rekas locals) :=
    filterMap_filter_of_none _ _
      (fun a ha => (not_keep_classifies_none rekas locals a ha).2.2) db
  refine ⟨?_, ?_, ?_⟩
  · conv_lhs => rw [hdb1]
    rw [list_all_videos_parts locals rekas
      (db.filter (keepRecord rekas locals)),
      list_all_videos_parts locals rekas db]
    simp only [hE, hI, hN]
  · conv_lhs => rw [hdb1]
    conv_rhs => rw [hdb1]
    rw [list_all_videos_parts locals rekas
      (db.filter (keepRecord rekas locals))]
    simp only [hdel2]
    rfl
  · conv_lhs => rw [hdb1]
    rw [list_all_videos_parts locals rekas
      (db.filter (keepRecord rekas locals))]
    exact hdel2

/-- C4, witnessed: one fully-synced record and one drifted record. -/
theorem reconciliation_idempotent_witness :
    (list_all_videos [wLocal] [wReka]
        ((list_all_videos [wLocal] [wReka]
          [wSyncRec, wDriftRec]).db)).entries
      = (list_all_videos [wLocal] [wReka] [wSyncRec, wDriftRec]).entries ∧
    (list_all_videos [wLocal] [wReka]
        ((list_all_videos [wLocal] [wReka]
          [wSyncRec, wDriftRec]).db)).db
      = (list_all_videos [wLocal] [wReka] [wSyncRec, wDriftRec]).db ∧
    (list_all_videos [wLocal] [wReka]
        ((list_all_videos [wLocal] [wReka]
          [wSyncRec, wDriftRec]).db)).deletes = [] :=
  reconciliation_idempotent [wLocal] [wReka] [wSyncRec, wDriftRec]
    (by decide)
